import Mathlib

/-!
Verification of the SQL front-end of RSqlDb: a shallow embedding of the
tokenizer (`src/parser/src/lexer.rs`), the token/keyword/symbol model
(`src/parser/src/token.rs`), the recursive-descent parser
(`src/parser/src/lib.rs`), the AST / schema / value data model
(`src/common/src/ast.rs`, `src/common/src/schema.rs`, `src/common/src/types.rs`)
and the planner (`src/planner/src/lib.rs`, `src/planner/src/planner.rs`).

The character stream (Rust `Peekable<Chars>`) is embedded as a `List Char`
state threaded explicitly; the token stream (Rust `Peekable<Lexer>`) as a
`List Token` state.  Fallible Rust functions returning `anyhow::Result`
become `Except String`, carrying the same error message text the Rust code
formats (Rust debug formatting of tokens is reproduced by the `debugFmt`
functions; the only divergence is that escapes inside an
`Ident(..)`/`String(..)` payload are not re-escaped).

Unicode caveat, stated once: the Rust predicates `char::is_whitespace`,
`is_alphabetic`, `is_numeric`, `is_alphanumeric` and `str::to_uppercase`
are Unicode-aware; the embedding models their ASCII behaviour exactly
(which agrees with Rust on every ASCII character - the entire SQL surface
grammar of this repository) and does not model non-ASCII letter/digit
categories.  `is_ascii_digit` and `is_ascii_punctuation` are ASCII-only in
Rust and are modelled exactly.
-/

namespace RSqlDb

/-! ## Character classification (`char` predicates used by the lexer) -/

/-- Rust `char::is_whitespace`, restricted to ASCII: exactly the ASCII
characters with the Unicode White_Space property, i.e. tab, LF, vertical
tab, form feed, CR (0x09-0x0D) and space (0x20). -/
def rustIsWhitespace (c : Char) : Bool :=
  (9 ≤ c.toNat && c.toNat ≤ 13) || c.toNat = 32

/-- Rust `char::is_ascii_digit` (exact: code points 0x30-0x39). -/
def rustIsAsciiDigit (c : Char) : Bool :=
  48 ≤ c.toNat && c.toNat ≤ 57

/-- Rust `char::is_alphabetic`, restricted to ASCII letters
(0x41-0x5A, 0x61-0x7A). -/
def rustIsAlphabetic (c : Char) : Bool :=
  (65 ≤ c.toNat && c.toNat ≤ 90) || (97 ≤ c.toNat && c.toNat ≤ 122)

/-- Rust `char::is_numeric`, restricted to ASCII digits. -/
def rustIsNumeric (c : Char) : Bool :=
  rustIsAsciiDigit c

/-- Rust `char::is_alphanumeric`, restricted to ASCII letters and digits. -/
def rustIsAlphanumeric (c : Char) : Bool :=
  rustIsAlphabetic c || rustIsAsciiDigit c

/-- Rust `char::is_ascii_punctuation` (exact: the four ASCII punctuation
ranges 0x21-0x2F, 0x3A-0x40, 0x5B-0x60, 0x7B-0x7E). -/
def rustIsAsciiPunctuation (c : Char) : Bool :=
  (0x21 ≤ c.toNat && c.toNat ≤ 0x2f) ||
  (0x3a ≤ c.toNat && c.toNat ≤ 0x40) ||
  (0x5b ≤ c.toNat && c.toNat ≤ 0x60) ||
  (0x7b ≤ c.toNat && c.toNat ≤ 0x7e)

/-- The single-quote character (code point 0x27), named so that quote
handling stays explicit throughout the lexer model. -/
def quoteChar : Char := Char.ofNat 39

/-- Rust `str::to_uppercase`, restricted to ASCII case mapping. -/
def uppercase (s : String) : String :=
  String.mk (s.data.map Char.toUpper)

/-! ## Token model (`src/parser/src/token.rs`) -/

/-- `token.rs` `enum Keyword`: the closed set of reserved words. -/
inductive Keyword
  | Create | Table | Int | Integer | Boolean | Bool | String | Text
  | Varchar | Float | Double | Select | From | Insert | Into | Values
  | True | False | Default | Not | Null | Primary | Key
deriving DecidableEq

/-- `token.rs` `impl FromStr for Keyword`: case-insensitive classification;
`none` models the `bail!("Unknown keyword")` arm. -/
def keywordFromStr (s : String) : Option Keyword :=
  match uppercase s with
  | "CREATE" => some .Create
  | "TABLE" => some .Table
  | "INT" => some .Int
  | "INTEGER" => some .Integer
  | "BOOLEAN" => some .Boolean
  | "BOOL" => some .Bool
  | "STRING" => some .String
  | "TEXT" => some .Text
  | "VARCHAR" => some .Varchar
  | "FLOAT" => some .Float
  | "DOUBLE" => some .Double
  | "SELECT" => some .Select
  | "FROM" => some .From
  | "INSERT" => some .Insert
  | "INTO" => some .Into
  | "VALUES" => some .Values
  | "TRUE" => some .True
  | "FALSE" => some .False
  | "DEFAULT" => some .Default
  | "NOT" => some .Not
  | "NULL" => some .Null
  | "PRIMARY" => some .Primary
  | "KEY" => some .Key
  | _ => none

/-- Rust debug form of a `Keyword` variant. -/
def keywordDebugFmt : Keyword → String
  | .Create => "Create"
  | .Table => "Table"
  | .Int => "Int"
  | .Integer => "Integer"
  | .Boolean => "Boolean"
  | .Bool => "Bool"
  | .String => "String"
  | .Text => "Text"
  | .Varchar => "Varchar"
  | .Float => "Float"
  | .Double => "Double"
  | .Select => "Select"
  | .From => "From"
  | .Insert => "Insert"
  | .Into => "Into"
  | .Values => "Values"
  | .True => "True"
  | .False => "False"
  | .Default => "Default"
  | .Not => "Not"
  | .Null => "Null"
  | .Primary => "Primary"
  | .Key => "Key"

/-- `token.rs` `enum Symbol`: the closed set of single-character symbols. -/
inductive Symbol
  | OpenParen | CloseParen | Comma | Semicolon | Asterisk | Plus | Minus | Slash
deriving DecidableEq

/-- `token.rs` `impl TryFrom<&char> for Symbol`; `none` models the
`bail!("Unknown symbol")` arm. -/
def symbolTryFrom (c : Char) : Option Symbol :=
  if c = '(' then some .OpenParen
  else if c = ')' then some .CloseParen
  else if c = ',' then some .Comma
  else if c = ';' then some .Semicolon
  else if c = '*' then some .Asterisk
  else if c = '+' then some .Plus
  else if c = '-' then some .Minus
  else if c = '/' then some .Slash
  else none

/-- Rust debug form of a `Symbol` variant. -/
def symbolDebugFmt : Symbol → String
  | .OpenParen => "OpenParen"
  | .CloseParen => "CloseParen"
  | .Comma => "Comma"
  | .Semicolon => "Semicolon"
  | .Asterisk => "Asterisk"
  | .Plus => "Plus"
  | .Minus => "Minus"
  | .Slash => "Slash"

/-- `token.rs` `enum Token`. -/
inductive Token
  | Keyword (k : Keyword)
  | Ident (s : String)
  | String (s : String)
  | Number (s : String)
  | Symbol (s : Symbol)
deriving DecidableEq

/-- Rust debug form of a `Token` (string payloads quoted, as Rust
debug-prints a `String`; escapes inside the payload are not modelled). -/
def tokenDebugFmt : Token → String
  | .Keyword k => "Keyword(" ++ keywordDebugFmt k ++ ")"
  | .Ident s => "Ident(\"" ++ s ++ "\")"
  | .String s => "String(\"" ++ s ++ "\")"
  | .Number s => "Number(\"" ++ s ++ "\")"
  | .Symbol s => "Symbol(" ++ symbolDebugFmt s ++ ")"

/-! ## Lexer (`src/parser/src/lexer.rs`)

Each `scan_*` method mutating `self.inner : Peekable<Chars>` becomes a
function from the remaining character list to a result together with the
new remaining character list. -/

/-- The loop body of `Lexer::scan_string`: consume characters until the
closing quote; `none` models the `self.inner.next()?` hitting end of input
(at which point every remaining character has been consumed). -/
def scanStringAux (acc : List Char) : List Char → Option (List Char × List Char)
  | [] => none
  | c :: rest =>
    if c = quoteChar then some (acc.reverse, rest)
    else scanStringAux (c :: acc) rest

/-- `Lexer::scan_string`.  Returns the (optional) token and the remaining
input; on an unterminated literal the whole input has been consumed. -/
def scanString (cs : List Char) : Option Token × List Char :=
  match cs with
  | [] => (none, [])
  | c :: rest =>
    if c = quoteChar then
      match scanStringAux [] rest with
      | some (v, rest2) => (some (Token.String (String.mk v)), rest2)
      | none => (none, [])
    else (none, cs)

/-- `Lexer::scan_number`: greedy digits, then optionally one point and more
digits; the raw text is stored unparsed. -/
def scanNumber (cs : List Char) : Option Token × List Char :=
  let intPart := cs.takeWhile rustIsNumeric
  let rest1 := cs.dropWhile rustIsNumeric
  match rest1 with
  | '.' :: rest2 =>
    let fracPart := rest2.takeWhile rustIsNumeric
    let rest3 := rest2.dropWhile rustIsNumeric
    (some (Token.Number (String.mk (intPart ++ '.' :: fracPart))), rest3)
  | _ => (some (Token.Number (String.mk intPart)), rest1)

/-- `Lexer::scan_keyword_or_ident`: greedy alphabetic characters, then
greedy alphanumeric characters, classified against the keyword table. -/
def scanKeywordOrIdent (cs : List Char) : Option Token × List Char :=
  let alphaPart := cs.takeWhile rustIsAlphabetic
  let rest1 := cs.dropWhile rustIsAlphabetic
  let alnumPart := rest1.takeWhile rustIsAlphanumeric
  let rest2 := rest1.dropWhile rustIsAlphanumeric
  let val := String.mk (alphaPart ++ alnumPart)
  match keywordFromStr val with
  | some k => (some (Token.Keyword k), rest2)
  | none => (some (Token.Ident val), rest2)

/-- `Lexer::scan_symbol`: peek one punctuation character and classify it;
an unknown symbol yields no token and leaves the character unconsumed
(the classification runs before `self.inner.next()`). -/
def scanSymbol (cs : List Char) : Option Token × List Char :=
  match cs with
  | [] => (none, [])
  | c :: rest =>
    match symbolTryFrom c with
    | some s => (some (Token.Symbol s), rest)
    | none => (none, c :: rest)

/-- `Lexer::scan`: skip whitespace, then dispatch on the peeked character;
the wildcard arm (end of input, or a character in none of the four classes)
is `bail!("Unexpected EOF")`. -/
def scan (cs : List Char) : Except String (Option Token × List Char) :=
  let cs1 := cs.dropWhile rustIsWhitespace
  match cs1 with
  | [] => .error "Unexpected EOF"
  | c :: _ =>
    if c = quoteChar then .ok (scanString cs1)
    else if rustIsAsciiDigit c then .ok (scanNumber cs1)
    else if rustIsAlphabetic c then .ok (scanKeywordOrIdent cs1)
    else if rustIsAsciiPunctuation c then .ok (scanSymbol cs1)
    else .error "Unexpected EOF"

/-- The `Iterator for Lexer` adapter: its `next` is `self.scan().ok()?`,
which turns both a scan error and a scanned `None` into end of stream.
`fuel` bounds the number of tokens produced; every caller passes at least
`cs.length + 1`, which is sufficient because each emitted token consumes at
least one character. -/
def tokenizeAux (fuel : Nat) (cs : List Char) : List Token :=
  match fuel with
  | 0 => []
  | fuel + 1 =>
    match scan cs with
    | .ok (some t, rest) => t :: tokenizeAux fuel rest
    | _ => []

/-- The token sequence the parser sees for a given input string. -/
def tokenize (s : String) : List Token :=
  tokenizeAux (s.data.length + 1) s.data

/-! ## Data model (`src/common/src/ast.rs`, `src/common/src/types.rs`)

Only `common::ast` is embedded: `parser/src/ast.rs` is an unused duplicate
(its `Constant` enum is referenced nowhere; the parser and planner both use
`common::ast::{Column, Const, Expression, Statement}`). -/

/-- `types.rs` `enum DataType`. -/
inductive DataType
  | Integer | Float | String | Boolean
deriving DecidableEq

/-- A Rust `f64` literal value.  No claim depends on float arithmetic or on
float equality across distinct source texts, so the value is represented by
the decimal text it was parsed from. -/
structure F64 where
  lit : String
deriving DecidableEq

/-- `ast.rs` `enum Const`. -/
inductive Const
  | Null
  | Boolean (b : Bool)
  | Integer (i : Int)
  | Float (f : F64)
  | String (s : String)
deriving DecidableEq

/-- `ast.rs` `enum Expression` (literal constants only). -/
inductive Expression
  | Const (c : Const)
deriving DecidableEq

/-- `ast.rs` `struct Column`: the AST-level column definition, with the
tri-state `nullable` and the optional default expression. -/
structure AstColumn where
  name : String
  data_type : DataType
  nullable : Option Bool
  default : Option Expression
deriving DecidableEq

/-- `ast.rs` `enum Statement`. -/
inductive Statement
  | Create (table_name : String) (columns : List AstColumn)
  | Insert (table_name : String) (columns : Option (List String))
      (values : List (List Expression))
  | Select (table_name : String)
deriving DecidableEq

/-! ## Numeric literal parsing used by `Parser::parse_expression` -/

/-- Numeric value of a string of ASCII digits. -/
def digitsToNat (l : List Char) : Nat :=
  l.foldl (fun a c => a * 10 + (c.toNat - 48)) 0

/-- Model of Rust `i64::from_str` on the only strings the parser feeds it:
`parse::<i64>()` is reached exactly when every character of the token text
is an ASCII digit, so the sign forms never occur.  The error strings are
the `ParseIntError` display texts. -/
def parseI64 (s : String) : Except String Int :=
  if s.data.isEmpty then .error "cannot parse integer from empty string"
  else if s.data.all rustIsAsciiDigit then
    if digitsToNat s.data ≤ 9223372036854775807 then .ok (Int.ofNat (digitsToNat s.data))
    else .error "number too large to fit in target type"
  else .error "invalid digit found in string"

/-- Decimal shapes accepted by Rust `f64::from_str`:
digits, or digits-point-digits with at least one digit on one side.  Rust
additionally accepts signs, exponents and inf/nan spellings, which no token
text produced by this grammar contains. -/
def f64Shape (l : List Char) : Bool :=
  let intPart := l.takeWhile rustIsAsciiDigit
  let rest := l.dropWhile rustIsAsciiDigit
  match rest with
  | [] => !intPart.isEmpty
  | c :: rest2 => c = '.' && (!intPart.isEmpty || !rest2.isEmpty) && rest2.all rustIsAsciiDigit

/-- Model of Rust `f64::from_str` (restricted per `f64Shape`); a successful
parse is represented by the source text itself. -/
def parseF64 (s : String) : Except String F64 :=
  if f64Shape s.data then .ok ⟨s⟩ else .error "invalid float literal"

/-! ## Parser (`src/parser/src/lib.rs`)

The parser state `Peekable<Lexer>` is embedded as the list of remaining
tokens.  Every production returns the parsed value together with the
remaining tokens, or the error message the Rust code formats. -/

/-- `Parser::peek`: head of the stream, or the end-of-input error. -/
def peekToken (ts : List Token) : Except String Token :=
  match ts with
  | [] => .error "Unexpected end of input"
  | t :: _ => .ok t

/-- `Parser::next`: consume one token, or the end-of-input error. -/
def nextToken (ts : List Token) : Except String (Token × List Token) :=
  match ts with
  | [] => .error "Unexpected end of input"
  | t :: rest => .ok (t, rest)

/-- `Parser::next_ident`: consume one token that must be an identifier. -/
def nextIdent (ts : List Token) : Except String (String × List Token) :=
  match ts with
  | [] => .error "Unexpected end of input"
  | Token.Ident s :: rest => .ok (s, rest)
  | t :: _ => .error ("Expected ident, got " ++ tokenDebugFmt t)

/-- `Parser::next_expect`: peek, compare with the expected token, consume on
a match; on a mismatch nothing is consumed and the error names both. -/
def nextExpect (expected : Token) (ts : List Token) : Except String (Token × List Token) :=
  match ts with
  | [] => .error "Unexpected end of input"
  | t :: rest =>
    if t = expected then .ok (t, rest)
    else .error ("Expected " ++ tokenDebugFmt expected ++ ", got " ++ tokenDebugFmt t)

/-- `Parser::parse_expression`: literal-expression parsing.  A `Number`
token is attempted as `i64` when all its characters are ASCII digits and as
`f64` otherwise; `String`, `TRUE`, `FALSE`, `NULL` map directly; everything
else is the unexpected-expression-token error. -/
def parseExpression (ts : List Token) : Except String (Expression × List Token) :=
  match ts with
  | [] => .error "Unexpected end of input"
  | t :: rest =>
    match t with
    | Token.Number n =>
      if n.data.all rustIsAsciiDigit then
        match parseI64 n with
        | .ok v => .ok (Expression.Const (Const.Integer v), rest)
        | .error e => .error e
      else
        match parseF64 n with
        | .ok f => .ok (Expression.Const (Const.Float f), rest)
        | .error e => .error e
    | Token.String s => .ok (Expression.Const (Const.String s), rest)
    | Token.Keyword Keyword.True => .ok (Expression.Const (Const.Boolean true), rest)
    | Token.Keyword Keyword.False => .ok (Expression.Const (Const.Boolean false), rest)
    | Token.Keyword Keyword.Null => .ok (Expression.Const Const.Null, rest)
    | exp => .error ("Unexpected expression token: " ++ tokenDebugFmt exp)

/-- The constraint-consuming loop of `Parser::parse_ddl_column`
(`while let Some(Token::Keyword(keyword)) = self.lexer.next_if(..)`):
as long as the next token is a keyword it is consumed; `NULL` sets
`nullable = Some(true)`, `NOT` demands a following `NULL` and sets
`nullable = Some(false)`, `DEFAULT` parses a literal expression into
`default`, and any other keyword is the fatal unexpected-keyword error.
`fuel` only bounds the iteration count so that the recursion is structural:
every iteration consumes at least one token, callers pass at least
`ts.length + 1`, and `constraintLoop_fuel` below shows any fuel above the
token count gives the same result, so the fuel-exhausted branch models no
behaviour of the Rust loop. -/
def constraintLoop (fuel : Nat) (col : AstColumn) (ts : List Token) :
    Except String (AstColumn × List Token) :=
  match fuel with
  | 0 => .error "constraint loop fuel exhausted"
  | fuel + 1 =>
    match ts with
    | Token.Keyword kw :: rest =>
      match kw with
      | Keyword.Null => constraintLoop fuel { col with nullable := some true } rest
      | Keyword.Not =>
        match nextExpect (Token.Keyword Keyword.Null) rest with
        | .ok (_, rest2) => constraintLoop fuel { col with nullable := some false } rest2
        | .error e => .error e
      | Keyword.Default =>
        match parseExpression rest with
        | .ok (e, rest2) => constraintLoop fuel { col with default := some e } rest2
        | .error err => .error err
      | k => .error ("Unexpected keyword: " ++ keywordDebugFmt k)
    | _ => .ok (col, ts)

/-- The constraint loop entered with sufficient fuel, as
`parse_ddl_column` runs it. -/
def constraintLoopRun (col : AstColumn) (ts : List Token) :
    Except String (AstColumn × List Token) :=
  constraintLoop (ts.length + 1) col ts

/-- `Parser::parse_ddl_column`: an identifier, then a type keyword
(INT/INTEGER, BOOL/BOOLEAN, FLOAT, STRING/TEXT/VARCHAR; anything else,
DOUBLE included, is the fatal unexpected-token error), then the constraint
loop starting from `nullable = None, default = None`. -/
def parseDdlColumn (ts : List Token) : Except String (AstColumn × List Token) :=
  match nextIdent ts with
  | .error e => .error e
  | .ok (name, ts1) =>
  match nextToken ts1 with
  | .error e => .error e
  | .ok (t, ts2) =>
    match t with
    | Token.Keyword Keyword.Integer => constraintLoopRun ⟨ name, DataType.Integer, none, none⟩ ts2
    | Token.Keyword Keyword.Int => constraintLoopRun ⟨ name, DataType.Integer, none, none⟩ ts2
    | Token.Keyword Keyword.Bool => constraintLoopRun ⟨ name, DataType.Boolean, none, none⟩ ts2
    | Token.Keyword Keyword.Boolean => constraintLoopRun ⟨ name, DataType.Boolean, none, none⟩ ts2
    | Token.Keyword Keyword.Float => constraintLoopRun ⟨ name, DataType.Float, none, none⟩ ts2
    | Token.Keyword Keyword.String => constraintLoopRun ⟨ name, DataType.String, none, none⟩ ts2
    | Token.Keyword Keyword.Text => constraintLoopRun ⟨ name, DataType.String, none, none⟩ ts2
    | Token.Keyword Keyword.Varchar => constraintLoopRun ⟨ name, DataType.String, none, none⟩ ts2
    | tok => .error ("Unexpected token: " ++ tokenDebugFmt tok)

/-- The column-definition loop of `Parser::parse_ddl_create_table`: push a
parsed column, continue only while a comma follows.  `fuel` makes the
recursion structural exactly as in `constraintLoop`; callers pass
`ts.length + 1`, sufficient since every iteration consumes tokens. -/
def createColumnsLoop (fuel : Nat) (acc : List AstColumn) (ts : List Token) :
    Except String (List AstColumn × List Token) :=
  match fuel with
  | 0 => .error "column loop fuel exhausted"
  | fuel + 1 =>
    match parseDdlColumn ts with
    | .error e => .error e
    | .ok (col, ts1) =>
      match nextExpect (Token.Symbol Symbol.Comma) ts1 with
      | .ok (_, ts2) => createColumnsLoop fuel (acc ++ [col]) ts2
      | .error _ => .ok (acc ++ [col], ts1)

/-- `Parser::parse_ddl_create_table`: table name, open paren, the column
loop, close paren. -/
def parseDdlCreateTable (ts : List Token) : Except String (Statement × List Token) :=
  match nextIdent ts with
  | .error e => .error e
  | .ok (table_name, ts1) =>
  match nextExpect (Token.Symbol Symbol.OpenParen) ts1 with
  | .error e => .error e
  | .ok (_, ts2) =>
  match createColumnsLoop (ts2.length + 1) [] ts2 with
  | .error e => .error e
  | .ok (columns, ts3) =>
  match nextExpect (Token.Symbol Symbol.CloseParen) ts3 with
  | .error e => .error e
  | .ok (_, ts4) => .ok (Statement.Create table_name columns, ts4)

/-- `Parser::parse_ddl`: consume two tokens which must be CREATE TABLE. -/
def parseDdl (ts : List Token) : Except String (Statement × List Token) :=
  match nextToken ts with
  | .error e => .error e
  | .ok (t1, ts1) =>
  match nextToken ts1 with
  | .error e => .error e
  | .ok (t2, ts2) =>
    match t1, t2 with
    | Token.Keyword Keyword.Create, Token.Keyword Keyword.Table => parseDdlCreateTable ts2
    | token1, token2 =>
      .error ("Not a ddl statement: " ++ tokenDebugFmt token1 ++ ", " ++ tokenDebugFmt token2)

/-- `Parser::parse_select`: exactly SELECT * FROM identifier. -/
def parseSelect (ts : List Token) : Except String (Statement × List Token) :=
  match nextExpect (Token.Keyword Keyword.Select) ts with
  | .error e => .error e
  | .ok (_, ts1) =>
  match nextExpect (Token.Symbol Symbol.Asterisk) ts1 with
  | .error e => .error e
  | .ok (_, ts2) =>
  match nextExpect (Token.Keyword Keyword.From) ts2 with
  | .error e => .error e
  | .ok (_, ts3) =>
  match nextIdent ts3 with
  | .error e => .error e
  | .ok (table_name, ts4) => .ok (Statement.Select table_name, ts4)

/-- The column-name loop of `Parser::parse_insert`: push an identifier,
then a close paren ends the list, a comma continues it, anything else is
the fatal unexpected-token error.  `fuel` as in `constraintLoop`. -/
def insertColsLoop (fuel : Nat) (cols : List String) (ts : List Token) :
    Except String (List String × List Token) :=
  match fuel with
  | 0 => .error "column-name loop fuel exhausted"
  | fuel + 1 =>
    match nextIdent ts with
    | .error e => .error e
    | .ok (name, ts1) =>
      match nextToken ts1 with
      | .error e => .error e
      | .ok (Token.Symbol Symbol.CloseParen, ts2) => .ok (cols ++ [name], ts2)
      | .ok (Token.Symbol Symbol.Comma, ts2) => insertColsLoop fuel (cols ++ [name]) ts2
      | .ok (t, _) => .error ("Unexpected token: " ++ tokenDebugFmt t)

/-- The per-row literal loop of `Parser::parse_insert`: push a parsed
expression, then a close paren ends the row, a comma continues it.
`fuel` as in `constraintLoop`. -/
def insertExprsLoop (fuel : Nat) (exprs : List Expression) (ts : List Token) :
    Except String (List Expression × List Token) :=
  match fuel with
  | 0 => .error "row loop fuel exhausted"
  | fuel + 1 =>
    match parseExpression ts with
    | .error e => .error e
    | .ok (ex, ts1) =>
      match nextToken ts1 with
      | .error e => .error e
      | .ok (Token.Symbol Symbol.CloseParen, ts2) => .ok (exprs ++ [ex], ts2)
      | .ok (Token.Symbol Symbol.Comma, ts2) => insertExprsLoop fuel (exprs ++ [ex]) ts2
      | .ok (t, _) => .error ("Unexpected token: " ++ tokenDebugFmt t)

/-- The value-rows loop of `Parser::parse_insert`: each row is an open
paren, the per-row literal loop, then a comma continues to another row and
anything else (checked without consuming) ends the list.
`fuel` as in `constraintLoop`. -/
def insertValuesLoop (fuel : Nat) (values : List (List Expression)) (ts : List Token) :
    Except String (List (List Expression) × List Token) :=
  match fuel with
  | 0 => .error "values loop fuel exhausted"
  | fuel + 1 =>
    match nextExpect (Token.Symbol Symbol.OpenParen) ts with
    | .error e => .error e
    | .ok (_, ts1) =>
      match insertExprsLoop (ts1.length + 1) [] ts1 with
      | .error e => .error e
      | .ok (exprs, ts2) =>
        match nextExpect (Token.Symbol Symbol.Comma) ts2 with
        | .ok (_, ts3) => insertValuesLoop fuel (values ++ [exprs]) ts3
        | .error _ => .ok (values ++ [exprs], ts2)

/-- `Parser::parse_insert`: INSERT INTO, table name, an optional
parenthesized column-name list (the open paren is consumed only when
present; on its absence nothing is consumed and `columns` is `None`),
VALUES, then the value-rows loop. -/
def parseInsert (ts : List Token) : Except String (Statement × List Token) :=
  match nextExpect (Token.Keyword Keyword.Insert) ts with
  | .error e => .error e
  | .ok (_, ts1) =>
  match nextExpect (Token.Keyword Keyword.Into) ts1 with
  | .error e => .error e
  | .ok (_, ts2) =>
  match nextIdent ts2 with
  | .error e => .error e
  | .ok (table_name, ts3) =>
  match
    (match nextExpect (Token.Symbol Symbol.OpenParen) ts3 with
     | .ok (_, ts3a) =>
       (match insertColsLoop (ts3a.length + 1) [] ts3a with
        | .error e => .error e
        | .ok (cols, ts4) => .ok (some cols, ts4))
     | .error _ => .ok (none, ts3) :
      Except String (Option (List String) × List Token))
  with
  | .error e => .error e
  | .ok (columns, ts4) =>
  match nextExpect (Token.Keyword Keyword.Values) ts4 with
  | .error e => .error e
  | .ok (_, ts5) =>
  match insertValuesLoop (ts5.length + 1) [] ts5 with
  | .error e => .error e
  | .ok (values, ts6) => .ok (Statement.Insert table_name columns values, ts6)
/-- `Parser::parse_statement`: dispatch on the peeked (not consumed) first
token. -/
def parseStatement (ts : List Token) : Except String (Statement × List Token) :=
  match peekToken ts with
  | .error e => .error e
  | .ok t =>
    match t with
    | Token.Keyword Keyword.Create => parseDdl ts
    | Token.Keyword Keyword.Select => parseSelect ts
    | Token.Keyword Keyword.Insert => parseInsert ts
    | token => .error ("Unexpected token: " ++ tokenDebugFmt token)

/-- `Parser::parse`: one statement, a mandatory terminating semicolon, and
then the stream must be exhausted (a remaining peeked token is the
trailing-content error; the `peek` end-of-input error means success). -/
def parse (ts : List Token) : Except String Statement :=
  match parseStatement ts with
  | .error e => .error e
  | .ok (stmt, ts1) =>
  match nextExpect (Token.Symbol Symbol.Semicolon) ts1 with
  | .error e => .error e
  | .ok (_, ts2) =>
  match peekToken ts2 with
  | .ok token => .error ("Unexpected token: " ++ tokenDebugFmt token)
  | .error _ => .ok stmt

/-- `Parser::new(input)` followed by `parse()`: the whole front half of the
pipeline on a source string. -/
def parseSql (s : String) : Except String Statement :=
  parse (tokenize s)

/-! ## Schema and value model (`src/common/src/schema.rs`, `types.rs`) -/

/-- `types.rs` `enum Value`: the resolved literal. -/
inductive Value
  | Null
  | Boolean (b : Bool)
  | Integer (i : Int)
  | Float (f : F64)
  | String (s : String)
deriving DecidableEq

/-- `types.rs` `impl From<Expression> for Value`. -/
def valueFromExpression (expr : Expression) : Value :=
  match expr with
  | Expression.Const Const.Null => Value.Null
  | Expression.Const (Const.Boolean v) => Value.Boolean v
  | Expression.Const (Const.Integer v) => Value.Integer v
  | Expression.Const (Const.Float v) => Value.Float v
  | Expression.Const (Const.String v) => Value.String v

/-- `schema.rs` `struct Column`: planner-level column, `nullable` resolved
to a plain Bool and `default` to an optional `Value`. -/
structure SchemaColumn where
  name : String
  data_type : DataType
  nullable : Bool
  default : Option Value
deriving DecidableEq

/-- `schema.rs` `struct Table`. -/
structure Table where
  name : String
  columns : List SchemaColumn
deriving DecidableEq

/-- `schema.rs` `impl From<ast::Column> for Column`: `nullable` defaults to
`false` via `unwrap_or(false)`; an explicit default expression is lowered
to a `Value`, an absent one synthesizes `Value::Null` when the resolved
`nullable` is true, and otherwise there is no default. -/
def schemaColumnFromAst (value : AstColumn) : SchemaColumn :=
  let nullable := value.nullable.getD false
  { name := value.name
    data_type := value.data_type
    nullable := nullable
    default :=
      match value.default with
      | some expr => some (valueFromExpression expr)
      | none => if nullable then some Value.Null else none }

/-! ## Planner (`src/planner/src/lib.rs`, `src/planner/src/planner.rs`) -/

/-- `planner/src/lib.rs` `enum Node`: the execution node. -/
inductive Node
  | Create (schema : Table)
  | Insert (table_name : String) (columns : List String)
      (values : List (List Value))
  | Scan (table_name : String)
deriving DecidableEq

/-- `planner/src/lib.rs` `struct Plan(pub Node)`. -/
structure Plan where
  node : Node
deriving DecidableEq

/-- `Planner::build_statement`: the structural lowering of one statement to
one node. -/
def buildStatement (stmt : Statement) : Node :=
  match stmt with
  | Statement.Create table_name columns =>
    Node.Create ⟨ table_name, columns.map schemaColumnFromAst⟩
  | Statement.Insert table_name columns values =>
    Node.Insert table_name (columns.getD [])
      (values.map (fun v => v.map valueFromExpression))
  | Statement.Select table_name => Node.Scan table_name

/-- `Plan::build` (via `Planner::new().build(stmt)`). -/
def planBuild (stmt : Statement) : Plan :=
  ⟨ buildStatement stmt⟩

/-! ## Token-consumption lemmas shared by the developments below -/

theorem nextToken_ok_length {ts : List Token} {t ts2}
    (h : nextToken ts = .ok (t, ts2)) : ts2.length < ts.length := by
  cases ts with
  | nil => simp [nextToken] at h
  | cons a rest =>
    simp only [nextToken, Except.ok.injEq, Prod.mk.injEq] at h
    simp [← h.2]

theorem nextIdent_ok_length {ts : List Token} {s ts2}
    (h : nextIdent ts = .ok (s, ts2)) : ts2.length < ts.length := by
  match ts, h with
  | Token.Ident a :: rest, h =>
    simp only [nextIdent, Except.ok.injEq, Prod.mk.injEq] at h
    simp [← h.2]

theorem nextExpect_ok_length {e : Token} {ts t ts2}
    (h : nextExpect e ts = .ok (t, ts2)) : ts2.length < ts.length := by
  cases ts with
  | nil => simp [nextExpect] at h
  | cons a rest =>
    simp only [nextExpect] at h
    split at h
    · simp only [Except.ok.injEq, Prod.mk.injEq] at h
      simp [← h.2]
    · exact absurd h (by simp)

theorem parseExpression_ok_length {ts : List Token} {e ts2}
    (h : parseExpression ts = .ok (e, ts2)) : ts2.length < ts.length := by
  cases ts with
  | nil => simp [parseExpression] at h
  | cons t rest =>
    simp only [parseExpression] at h
    split at h <;> (try split at h) <;> (try split at h)
    all_goals
      first
        | (simp only [Except.ok.injEq, Prod.mk.injEq] at h
           simp [← h.2])
        | simp at h

theorem constraintLoop_fuel :
    ∀ (fuel fuel2 : Nat) (col : AstColumn) (ts : List Token),
      ts.length < fuel → ts.length < fuel2 →
      constraintLoop fuel col ts = constraintLoop fuel2 col ts := by
  intro fuel
  induction fuel with
  | zero =>
    intro fuel2 col ts h h2
    exact absurd h (by omega)
  | succ fuel ih =>
    intro fuel2 col ts h h2
    match fuel2, h2 with
    | fuel2 + 1, h2 =>
      cases ts with
      | nil => rfl
      | cons t rest =>
        cases t with
        | Keyword kw =>
          cases kw
          all_goals simp only [constraintLoop]
          case Null =>
            apply ih
            · simp at h; omega
            · simp at h2; omega
          case Not =>
            cases hne : nextExpect (Token.Keyword Keyword.Null) rest with
            | ok p =>
              have := nextExpect_ok_length
                (show nextExpect (Token.Keyword Keyword.Null) rest = .ok (p.1, p.2) by
                  rw [hne])
              simp only []
              apply ih
              · simp at h; omega
              · simp at h2; omega
            | error e => simp only []
          case Default =>
            cases hpe : parseExpression rest with
            | ok p =>
              have := parseExpression_ok_length
                (show parseExpression rest = .ok (p.1, p.2) by rw [hpe])
              simp only []
              apply ih
              · simp at h; omega
              · simp at h2; omega
            | error e => simp only []
        | Ident s => rfl
        | String s => rfl
        | Number s => rfl
        | Symbol s => rfl

theorem insertColsLoop_ok_len :
    ∀ (fuel : Nat) (cols : List String) (ts : List Token) {l ts2},
      insertColsLoop fuel cols ts = .ok (l, ts2) → cols.length < l.length := by
  intro fuel
  induction fuel with
  | zero =>
    intro cols ts l ts2 h
    simp [insertColsLoop] at h
  | succ fuel ih =>
    intro cols ts l ts2 h
    simp only [insertColsLoop] at h
    split at h
    · simp at h
    · split at h
      · simp at h
      · simp only [Except.ok.injEq, Prod.mk.injEq] at h
        obtain ⟨rfl, rfl⟩ := h
        simp
      · have := ih _ _ h
        simp only [List.length_append, List.length_cons] at this ⊢
        omega
      · simp at h

theorem insertExprsLoop_ok_len :
    ∀ (fuel : Nat) (exprs : List Expression) (ts : List Token) {l ts2},
      insertExprsLoop fuel exprs ts = .ok (l, ts2) → exprs.length < l.length := by
  intro fuel
  induction fuel with
  | zero =>
    intro exprs ts l ts2 h
    simp [insertExprsLoop] at h
  | succ fuel ih =>
    intro exprs ts l ts2 h
    simp only [insertExprsLoop] at h
    split at h
    · simp at h
    · split at h
      · simp at h
      · simp only [Except.ok.injEq, Prod.mk.injEq] at h
        obtain ⟨rfl, rfl⟩ := h
        simp
      · have := ih _ _ h
        simp only [List.length_append, List.length_cons] at this ⊢
        omega
      · simp at h

theorem insertValuesLoop_ok :
    ∀ (fuel : Nat) (values : List (List Expression)) (ts : List Token) {v ts2},
      insertValuesLoop fuel values ts = .ok (v, ts2) →
      values.length < v.length ∧ ∀ row ∈ v, row ∈ values ∨ row ≠ [] := by
  intro fuel
  induction fuel with
  | zero =>
    intro values ts v ts2 h
    simp [insertValuesLoop] at h
  | succ fuel ih =>
    intro values ts v ts2 h
    simp only [insertValuesLoop] at h
    split at h
    · simp at h
    · split at h
      · simp at h
      · rename_i exprs ts2m hexprs
        have hrow : exprs ≠ [] := by
          have := insertExprsLoop_ok_len _ _ _ hexprs
          intro hemp
          simp [hemp] at this
        split at h
        · obtain ⟨hlen, hrows⟩ := ih _ _ h
          constructor
          · simp only [List.length_append, List.length_cons] at hlen
            omega
          · intro row hr
            rcases hrows row hr with hin | hne
            · rcases List.mem_append.mp hin with hin2 | hin2
              · exact Or.inl hin2
              · right
                simpa [List.mem_singleton.mp hin2] using hrow
            · exact Or.inr hne
        · simp only [Except.ok.injEq, Prod.mk.injEq] at h
          obtain ⟨rfl, rfl⟩ := h
          constructor
          · simp
          · intro row hr
            rcases List.mem_append.mp hr with hin2 | hin2
            · exact Or.inl hin2
            · right
              simpa [List.mem_singleton.mp hin2] using hrow

theorem parseDdl_ok_shape {ts : List Token} {stmt ts2}
    (h : parseDdl ts = .ok (stmt, ts2)) :
    ∃ tn cols, stmt = Statement.Create tn cols := by
  unfold parseDdl at h
  split at h
  · simp at h
  · split at h
    · simp at h
    · split at h
      · unfold parseDdlCreateTable at h
        split at h
        · simp at h
        · split at h
          · simp at h
          · split at h
            · simp at h
            · split at h
              · simp at h
              · simp only [Except.ok.injEq, Prod.mk.injEq] at h
                exact ⟨_, _, h.1.symm⟩
      · simp at h

theorem parseSelect_ok_shape {ts : List Token} {stmt ts2}
    (h : parseSelect ts = .ok (stmt, ts2)) :
    ∃ tn, stmt = Statement.Select tn := by
  unfold parseSelect at h
  split at h
  · simp at h
  · split at h
    · simp at h
    · split at h
      · simp at h
      · split at h
        · simp at h
        · simp only [Except.ok.injEq, Prod.mk.injEq] at h
          exact ⟨_, h.1.symm⟩

theorem parseInsert_ok_inv {ts : List Token} {stmt ts2}
    (h : parseInsert ts = .ok (stmt, ts2)) :
    ∃ tn cols vals, stmt = Statement.Insert tn cols vals ∧
      (∀ l, cols = some l → l ≠ []) ∧ vals ≠ [] ∧ ∀ row ∈ vals, row ≠ [] := by
  unfold parseInsert at h
  split at h
  · simp at h
  split at h
  · simp at h
  split at h
  · simp at h
  split at h
  · simp at h
  rename_i columns ts4 hcolumns
  split at h
  · simp at h
  split at h
  · simp at h
  rename_i values ts6 hvalues
  simp only [Except.ok.injEq, Prod.mk.injEq] at h
  obtain ⟨h1, h2⟩ := h
  refine ⟨_, _, _, h1.symm, ?_, ?_, ?_⟩
  · intro l hl
    split at hcolumns
    · split at hcolumns
      · simp at hcolumns
      · rename_i cols2 ts4b hcols
        simp only [Except.ok.injEq, Prod.mk.injEq] at hcolumns
        obtain ⟨hc1, hc2⟩ := hcolumns
        rw [← hc1] at hl
        have hlen := insertColsLoop_ok_len _ _ _ hcols
        simp only [Option.some.injEq] at hl
        subst hl
        intro hemp
        simp [hemp] at hlen
    · simp only [Except.ok.injEq, Prod.mk.injEq] at hcolumns
      obtain ⟨hc1, hc2⟩ := hcolumns
      rw [← hc1] at hl
      simp at hl
  · have := (insertValuesLoop_ok _ _ _ hvalues).1
    intro hemp
    simp [hemp] at this
  · intro row hr
    rcases (insertValuesLoop_ok _ _ _ hvalues).2 row hr with hin | hne
    · simp at hin
    · exact hne

/-! ## Claim theorems -/

/-- C1: For every AST column `c`, lowering via `From<ast::Column>` yields a
schema column whose `nullable` is false iff `c.nullable` was `None` or
`Some(false)` (and true iff it was `Some(true)`); and whose `default` is
the lowered `Value` of `c.default` when a default was parsed,
`Some(Value::Null)` when `c.default` is unset and the resolved nullable is
true, and `None` otherwise.  In particular, planning
`CREATE TABLE t (c varchar null)` yields a schema column with nullable
true and default `Some(Value::Null)` even though no DEFAULT was written. -/
theorem c1_schema_lowering :
    (∀ c : AstColumn,
      ((schemaColumnFromAst c).nullable = false ↔
        (c.nullable = none ∨ c.nullable = some false))
      ∧ ((schemaColumnFromAst c).nullable = true ↔ c.nullable = some true)
      ∧ (∀ e, c.default = some e →
          (schemaColumnFromAst c).default = some (valueFromExpression e))
      ∧ (c.default = none → (schemaColumnFromAst c).nullable = true →
          (schemaColumnFromAst c).default = some Value.Null)
      ∧ (c.default = none → (schemaColumnFromAst c).nullable = false →
          (schemaColumnFromAst c).default = none))
    ∧ (parseSql "CREATE TABLE t (c varchar null);").map planBuild =
        .ok ⟨ Node.Create ⟨ "t", [ ⟨ "c", DataType.String, true, some Value.Null⟩]⟩⟩ := by
  constructor
  · intro c
    obtain ⟨nm, dt, nb, df⟩ := c
    cases nb with
    | none => cases df <;> simp [schemaColumnFromAst]
    | some b => cases b <;> cases df <;> simp [schemaColumnFromAst]
  · rfl

/-- C1 witness: the nullable-without-default column of the claim. -/
theorem c1_schema_lowering_witness :
    (schemaColumnFromAst ⟨ "c", DataType.String, some true, none⟩).default
      = some Value.Null :=
  (c1_schema_lowering.1 ⟨ "c", DataType.String, some true, none⟩).2.2.2.1 rfl rfl

/-- C2: `Plan::build` is a total, deterministic, pure structural transform
(in this embedding a total function, so it cannot fail or panic), wrapping
exactly one node matching the statement kind: Create lowers to
`Node::Create` with every AST column lowered in declaration order, Insert
to `Node::Insert`, Select to `Node::Scan` with the same table name. -/
theorem c2_plan_build_shape :
    (∀ tn cols, planBuild (Statement.Create tn cols) =
      ⟨ Node.Create ⟨ tn, cols.map schemaColumnFromAst⟩⟩)
    ∧ (∀ tn cols vals, planBuild (Statement.Insert tn cols vals) =
        ⟨ Node.Insert tn (cols.getD [])
          (vals.map (fun v => v.map valueFromExpression))⟩)
    ∧ (∀ tn, planBuild (Statement.Select tn) = ⟨ Node.Scan tn⟩) :=
  ⟨ fun _ _ => rfl, fun _ _ _ => rfl, fun _ => rfl⟩

/-- C8: in column-type position INT and INTEGER map to `DataType::Integer`,
BOOL and BOOLEAN to `DataType::Boolean`, STRING, TEXT and VARCHAR to
`DataType::String`, FLOAT to `DataType::Float`; DOUBLE, although a keyword
to the tokenizer, is not accepted as a column type, so parsing a CREATE
statement whose column is declared DOUBLE fails. -/
theorem c8_column_types :
    (∀ (nm : String) (rest : List Token),
      parseDdlColumn (Token.Ident nm :: Token.Keyword Keyword.Int :: rest) =
        constraintLoopRun ⟨ nm, DataType.Integer, none, none⟩ rest
      ∧ parseDdlColumn (Token.Ident nm :: Token.Keyword Keyword.Integer :: rest) =
          constraintLoopRun ⟨ nm, DataType.Integer, none, none⟩ rest
      ∧ parseDdlColumn (Token.Ident nm :: Token.Keyword Keyword.Bool :: rest) =
          constraintLoopRun ⟨ nm, DataType.Boolean, none, none⟩ rest
      ∧ parseDdlColumn (Token.Ident nm :: Token.Keyword Keyword.Boolean :: rest) =
          constraintLoopRun ⟨ nm, DataType.Boolean, none, none⟩ rest
      ∧ parseDdlColumn (Token.Ident nm :: Token.Keyword Keyword.String :: rest) =
          constraintLoopRun ⟨ nm, DataType.String, none, none⟩ rest
      ∧ parseDdlColumn (Token.Ident nm :: Token.Keyword Keyword.Text :: rest) =
          constraintLoopRun ⟨ nm, DataType.String, none, none⟩ rest
      ∧ parseDdlColumn (Token.Ident nm :: Token.Keyword Keyword.Varchar :: rest) =
          constraintLoopRun ⟨ nm, DataType.String, none, none⟩ rest
      ∧ parseDdlColumn (Token.Ident nm :: Token.Keyword Keyword.Float :: rest) =
          constraintLoopRun ⟨ nm, DataType.Float, none, none⟩ rest
      ∧ parseDdlColumn (Token.Ident nm :: Token.Keyword Keyword.Double :: rest) =
          .error "Unexpected token: Keyword(Double)")
    ∧ parseSql "create table t (c double);" = .error "Unexpected token: Keyword(Double)" :=
  ⟨ fun _ _ => ⟨ rfl, rfl, rfl, rfl, rfl, rfl, rfl, rfl, rfl⟩, rfl⟩

/-- C10: a Number token whose text is all ASCII digits but denotes a value
above the `i64` maximum makes the parse fail with the propagated
integer-parse error (it is neither wrapped nor reclassified as a float),
even though the statement is grammatically valid. -/
theorem c10_integer_overflow :
    (∀ (s : String) (ts : List Token),
      s.data.all rustIsAsciiDigit = true →
      9223372036854775807 < digitsToNat s.data →
      parseExpression (Token.Number s :: ts) =
        .error "number too large to fit in target type")
    ∧ parseSql "insert into t values (9223372036854775808);" =
        .error "number too large to fit in target type" := by
  constructor
  · intro s ts hdig hbig
    have hne : s.data ≠ [] := by
      intro hemp
      rw [hemp] at hbig
      simp [digitsToNat] at hbig
    simp only [parseExpression, hdig, if_true, parseI64]
    have hcond : ¬ digitsToNat s.data ≤ 9223372036854775807 := by omega
    have hemptyf : ¬ s.data.isEmpty = true := by simpa using hne
    rw [if_neg hcond, if_neg hemptyf]
  · rfl

/-- C10 witness: the literal 2 to the 63rd overflows. -/
theorem c10_integer_overflow_witness :
    parseExpression [ Token.Number "9223372036854775808"] =
      .error "number too large to fit in target type" :=
  c10_integer_overflow.1 "9223372036854775808" [] (by decide) (by decide)

/-- An ASCII punctuation character is neither an ASCII digit nor an ASCII
letter: the scanner's dispatch guards are mutually exclusive there. -/
theorem asciiPunctuation_class (c : Char)
    (h : rustIsAsciiPunctuation c = true) :
    rustIsAsciiDigit c = false ∧ rustIsAlphabetic c = false := by
  simp only [rustIsAsciiPunctuation, Bool.or_eq_true, Bool.and_eq_true,
    decide_eq_true_eq] at h
  constructor
  · cases hb : rustIsAsciiDigit c with
    | false => rfl
    | true =>
      exfalso
      simp only [rustIsAsciiDigit, Bool.and_eq_true, decide_eq_true_eq] at hb
      omega
  · cases hb : rustIsAlphabetic c with
    | false => rfl
    | true =>
      exfalso
      simp only [rustIsAlphabetic, Bool.or_eq_true, Bool.and_eq_true,
        decide_eq_true_eq] at hb
      omega

/-- C3 counterexample: the equals sign is ASCII punctuation outside the
symbol set, yet `scan` does not fail: it returns `Ok(None)` with the
character left unconsumed, so no lexical error is ever produced. -/
theorem c3_counterexample :
    rustIsAsciiPunctuation (Char.ofNat 61) = true
    ∧ symbolTryFrom (Char.ofNat 61) = none
    ∧ scan [ Char.ofNat 61] = .ok (none, [ Char.ofNat 61])
    ∧ tokenizeAux 50 [ Char.ofNat 61] = [] :=
  ⟨ rfl, rfl, rfl, rfl⟩

/-- C3 (amended): after skipping whitespace, a character that is in none of
the four scanner classes (quote, ASCII digit, alphabetic, ASCII
punctuation) makes `scan` return the fatal error (text "Unexpected EOF"),
while an ASCII punctuation character outside the symbol set is not an
error at all: `scan` returns `Ok(None)` without consuming it.  In both
cases the `Iterator` adapter turns the outcome into a silent end of the
token stream. -/
theorem c3_unrecognized_character :
    ∀ (cs : List Char) (c : Char) (rest : List Char),
      cs.dropWhile rustIsWhitespace = c :: rest →
      ((c ≠ quoteChar → rustIsAsciiDigit c = false → rustIsAlphabetic c = false →
          rustIsAsciiPunctuation c = false →
          scan cs = .error "Unexpected EOF" ∧ ∀ fuel, tokenizeAux fuel cs = [])
        ∧ (rustIsAsciiPunctuation c = true → c ≠ quoteChar → symbolTryFrom c = none →
          scan cs = .ok (none, c :: rest) ∧ ∀ fuel, tokenizeAux fuel cs = [])) := by
  intro cs c rest hdrop
  constructor
  · intro hq hd ha hp
    have hscan : scan cs = .error "Unexpected EOF" := by
      unfold scan
      rw [hdrop]
      simp [hq, hd, ha, hp]
    refine ⟨ hscan, fun fuel => ?_⟩
    cases fuel with
    | zero => rfl
    | succ fuel =>
      simp only [tokenizeAux]
      rw [hscan]
  · intro hp hq hsym
    obtain ⟨hd, ha⟩ := asciiPunctuation_class c hp
    have hscan : scan cs = .ok (none, c :: rest) := by
      unfold scan
      rw [hdrop]
      simp [hq, hd, ha, hp, scanSymbol, hsym]
    refine ⟨ hscan, fun fuel => ?_⟩
    cases fuel with
    | zero => rfl
    | succ fuel =>
      simp only [tokenizeAux]
      rw [hscan]

/-- C3 witness: code point 1 (unrecognized class) aborts the scan with the
error, and the equals sign (unrecognized punctuation) silently ends the
stream. -/
theorem c3_unrecognized_character_witness :
    scan [ Char.ofNat 1] = .error "Unexpected EOF"
    ∧ scan [ Char.ofNat 61] = .ok (none, [ Char.ofNat 61]) :=
  ⟨ ((c3_unrecognized_character [ Char.ofNat 1] (Char.ofNat 1) [] rfl).1
      (by decide) (by decide) (by decide) (by decide)).1,
    ((c3_unrecognized_character [ Char.ofNat 61] (Char.ofNat 61) [] rfl).2
      (by decide) (by decide) (by decide)).1⟩

/-- The Rust `loop` inside `scan_string` hits `self.inner.next()?` when no
closing quote remains, consuming everything and producing no value. -/
theorem scanStringAux_no_close :
    ∀ (rest : List Char) (acc : List Char), quoteChar ∉ rest →
      scanStringAux acc rest = none := by
  intro rest
  induction rest with
  | nil => intro acc h; rfl
  | cons c rest2 ih =>
    intro acc h
    simp only [List.mem_cons, not_or] at h
    have hneq : ¬ c = quoteChar := fun he => h.1 he.symm
    simp only [scanStringAux, if_neg hneq]
    exact ih _ h.2

/-- C4: an unterminated single-quoted string literal makes the scan consume
every remaining character and return no token and no error: the token
sequence simply ends (here: tokenizing an input that ends in an
unterminated literal keeps only the tokens before the quote). -/
theorem c4_unterminated_string :
    (∀ (cs : List Char) (rest : List Char),
      cs.dropWhile rustIsWhitespace = quoteChar :: rest →
      quoteChar ∉ rest →
      scan cs = .ok (none, []) ∧ ∀ fuel, tokenizeAux fuel cs = [])
    ∧ tokenizeAux 50 [ 's', 'e', 'l', 'e', 'c', 't', ' ', quoteChar, 'a', 'b', 'c']
        = [ Token.Keyword Keyword.Select] := by
  constructor
  · intro cs rest hdrop hnoq
    have hscan : scan cs = .ok (none, []) := by
      unfold scan
      rw [hdrop]
      simp [scanString, scanStringAux_no_close rest [] hnoq]
    refine ⟨ hscan, fun fuel => ?_⟩
    cases fuel with
    | zero => rfl
    | succ fuel =>
      simp only [tokenizeAux]
      rw [hscan]
  · rfl

/-- C4 witness: a lone unterminated literal is scanned to `Ok(None)`. -/
theorem c4_unterminated_string_witness :
    scan [ quoteChar, 'a', 'b'] = .ok (none, []) :=
  (c4_unterminated_string.1 [ quoteChar, 'a', 'b'] [ 'a', 'b'] rfl (by decide)).1

/-- C5: `parse` returns a statement only when the parsed statement is
immediately followed by the terminating semicolon and the stream then
holds no further token; an exhausted stream where the semicolon (or any
required token) should be is the unexpected-end-of-input error, and a
token left after the semicolon is the trailing-content error naming the
first leftover token. -/
theorem c5_parse_termination :
    ∀ (ts : List Token),
      (∀ stmt, parse ts = .ok stmt →
        parseStatement ts = .ok (stmt, [ Token.Symbol Symbol.Semicolon]))
      ∧ (∀ stmt, parseStatement ts = .ok (stmt, []) →
        parse ts = .error "Unexpected end of input")
      ∧ (∀ stmt t rest,
          parseStatement ts = .ok (stmt, Token.Symbol Symbol.Semicolon :: t :: rest) →
          parse ts = .error ("Unexpected token: " ++ tokenDebugFmt t)) := by
  intro ts
  refine ⟨?_, ?_, ?_⟩
  · intro stmt h
    unfold parse at h
    split at h
    · simp at h
    rename_i stmt2 ts1 hps
    split at h
    · simp at h
    rename_i tk ts2 hne
    split at h
    · simp at h
    · rename_i e hpk
      simp only [Except.ok.injEq] at h
      subst h
      have hts2 : ts2 = [] := by
        cases ts2 with
        | nil => rfl
        | cons a ts2b => simp [peekToken] at hpk
      subst hts2
      cases ts1 with
      | nil => simp [nextExpect] at hne
      | cons a ts1b =>
        simp only [nextExpect] at hne
        split at hne
        · rename_i hat
          simp only [Except.ok.injEq, Prod.mk.injEq] at hne
          rw [hat, hne.2] at hps
          exact hps
        · simp at hne
  · intro stmt h
    unfold parse
    rw [h]
    rfl
  · intro stmt t rest h
    unfold parse
    rw [h]
    simp [nextExpect, peekToken]

/-- C5 witness: a statement with a token after the semicolon fails with the
trailing-content error naming it. -/
theorem c5_parse_termination_witness :
    parse [ Token.Keyword Keyword.Select, Token.Symbol Symbol.Asterisk,
        Token.Keyword Keyword.From, Token.Ident "u",
        Token.Symbol Symbol.Semicolon, Token.Keyword Keyword.Create]
      = .error "Unexpected token: Keyword(Create)" :=
  (c5_parse_termination [ Token.Keyword Keyword.Select, Token.Symbol Symbol.Asterisk,
      Token.Keyword Keyword.From, Token.Ident "u",
      Token.Symbol Symbol.Semicolon, Token.Keyword Keyword.Create]).2.2
    (Statement.Select "u") (Token.Keyword Keyword.Create) [] rfl

/-- C6: in literal-expression position a Number token is taken as an
Integer constant when every character of its text is an ASCII digit (here
with the value in `i64` range; the out-of-range refinement is the
overflow theorem) and as a Float constant otherwise (for the
digits-point-digits texts the scanner can emit); String tokens and the
keywords TRUE, FALSE, NULL map directly to their constants; any other
token in expression position is the fatal unexpected-expression-token
error. -/
theorem c6_literal_expression_classification :
    ∀ (s : String) (ts : List Token),
      (s.data ≠ [] → s.data.all rustIsAsciiDigit = true →
        digitsToNat s.data ≤ 9223372036854775807 →
        parseExpression (Token.Number s :: ts) =
          .ok (Expression.Const (Const.Integer (Int.ofNat (digitsToNat s.data))), ts))
      ∧ (s.data.all rustIsAsciiDigit = false → f64Shape s.data = true →
        parseExpression (Token.Number s :: ts) =
          .ok (Expression.Const (Const.Float ⟨ s⟩), ts))
      ∧ (∀ str, parseExpression (Token.String str :: ts) =
          .ok (Expression.Const (Const.String str), ts))
      ∧ parseExpression (Token.Keyword Keyword.True :: ts) =
          .ok (Expression.Const (Const.Boolean true), ts)
      ∧ parseExpression (Token.Keyword Keyword.False :: ts) =
          .ok (Expression.Const (Const.Boolean false), ts)
      ∧ parseExpression (Token.Keyword Keyword.Null :: ts) =
          .ok (Expression.Const Const.Null, ts)
      ∧ (∀ k, k ≠ Keyword.True → k ≠ Keyword.False → k ≠ Keyword.Null →
          parseExpression (Token.Keyword k :: ts) =
            .error ("Unexpected expression token: " ++ tokenDebugFmt (Token.Keyword k)))
      ∧ (∀ nm, parseExpression (Token.Ident nm :: ts) =
          .error ("Unexpected expression token: " ++ tokenDebugFmt (Token.Ident nm)))
      ∧ (∀ sym, parseExpression (Token.Symbol sym :: ts) =
          .error ("Unexpected expression token: " ++ tokenDebugFmt (Token.Symbol sym))) := by
  intro s ts
  refine ⟨?_, ?_, fun str => rfl, rfl, rfl, rfl, ?_, fun nm => rfl, fun sym => rfl⟩
  · intro hne hdig hrange
    have hemptyf : ¬ s.data.isEmpty = true := by simpa using hne
    simp only [parseExpression, hdig, if_true, parseI64]
    rw [if_pos hrange, if_neg hemptyf]
  · intro hdig hshape
    simp only [parseExpression, hdig, Bool.false_eq_true, if_false, parseF64]
    rw [if_pos hshape]
  · intro k h1 h2 h3
    cases k <;> first | rfl | simp_all

/-- C6 witness: an all-digit text is an Integer constant, a
digits-point-digits text a Float constant. -/
theorem c6_literal_expression_classification_witness :
    parseExpression [ Token.Number "12"] =
      .ok (Expression.Const (Const.Integer 12), [])
    ∧ parseExpression [ Token.Number "1.5"] =
      .ok (Expression.Const (Const.Float ⟨ "1.5"⟩), []) :=
  ⟨ (c6_literal_expression_classification "12" []).1 (by decide) (by decide) (by decide),
    ((c6_literal_expression_classification "1.5" []).2.1 (by decide) (by decide))⟩

/-- One iteration of the constraint loop, unfolded. -/
theorem constraintLoop_succ (fuel : Nat) (col : AstColumn) (ts : List Token) :
    constraintLoop (fuel + 1) col ts =
      match ts with
      | Token.Keyword kw :: rest =>
        match kw with
        | Keyword.Null => constraintLoop fuel { col with nullable := some true } rest
        | Keyword.Not =>
          match nextExpect (Token.Keyword Keyword.Null) rest with
          | .ok (_, rest2) => constraintLoop fuel { col with nullable := some false } rest2
          | .error e => .error e
        | Keyword.Default =>
          match parseExpression rest with
          | .ok (e, rest2) => constraintLoop fuel { col with default := some e } rest2
          | .error err => .error err
        | k => .error ("Unexpected keyword: " ++ keywordDebugFmt k)
      | _ => .ok (col, ts) := rfl

/-- C7 counterexample: a bare NOT followed by a non-NULL token fails with
the grammar-mismatch error produced by `next_expect` ("Expected ..., got
..."), not with a distinct "unexpected keyword" error as the claim states
(that error text is produced only for other keywords in constraint
position). -/
theorem c7_counterexample :
    constraintLoopRun ⟨ "c", DataType.Integer, none, none⟩
        [ Token.Keyword Keyword.Not, Token.Symbol Symbol.Comma]
      = .error "Expected Keyword(Null), got Symbol(Comma)" := rfl

/-- C7 (amended): in the constraint loop (running while the next token is a
keyword) NULL sets nullable to true, NOT NULL sets it to false, DEFAULT
followed by a literal sets the default, any other keyword is the fatal
"Unexpected keyword" error; a bare NOT not followed by NULL fails through
`next_expect`, i.e. with the same grammar-mismatch "Expected ..., got ..."
error form (or the end-of-input error), not with a distinct
unexpected-keyword error. -/
theorem c7_constraint_loop :
    ∀ (col : AstColumn) (rest : List Token),
      (constraintLoopRun col (Token.Keyword Keyword.Null :: rest) =
        constraintLoopRun { col with nullable := some true } rest)
      ∧ (constraintLoopRun col
            (Token.Keyword Keyword.Not :: Token.Keyword Keyword.Null :: rest) =
          constraintLoopRun { col with nullable := some false } rest)
      ∧ (∀ t, t ≠ Token.Keyword Keyword.Null →
          constraintLoopRun col (Token.Keyword Keyword.Not :: t :: rest) =
            .error ("Expected Keyword(Null), got " ++ tokenDebugFmt t))
      ∧ (constraintLoopRun col [ Token.Keyword Keyword.Not] =
          .error "Unexpected end of input")
      ∧ (∀ e rest2, parseExpression rest = .ok (e, rest2) →
          constraintLoopRun col (Token.Keyword Keyword.Default :: rest) =
            constraintLoopRun { col with default := some e } rest2)
      ∧ (∀ err, parseExpression rest = .error err →
          constraintLoopRun col (Token.Keyword Keyword.Default :: rest) = .error err)
      ∧ (∀ k, k ≠ Keyword.Null → k ≠ Keyword.Not → k ≠ Keyword.Default →
          constraintLoopRun col (Token.Keyword k :: rest) =
            .error ("Unexpected keyword: " ++ keywordDebugFmt k))
      ∧ (∀ t, (∀ k, t ≠ Token.Keyword k) →
          constraintLoopRun col (t :: rest) = .ok (col, t :: rest))
      ∧ constraintLoopRun col [] = .ok (col, []) := by
  intro col rest
  refine ⟨ rfl, ?_, ?_, rfl, ?_, ?_, ?_, ?_, rfl⟩
  · show constraintLoop (rest.length + 2) { col with nullable := some false } rest =
      constraintLoop (rest.length + 1) { col with nullable := some false } rest
    exact constraintLoop_fuel _ _ _ _ (by omega) (by omega)
  · intro t ht
    unfold constraintLoopRun
    simp only [List.length_cons, constraintLoop, nextExpect, if_neg ht]
    rfl
  · intro e rest2 hpe
    have hlt := parseExpression_ok_length hpe
    unfold constraintLoopRun
    simp only [List.length_cons]
    rw [constraintLoop_succ]
    simp only [hpe]
    apply constraintLoop_fuel
    · omega
    · omega
  · intro err hpe
    unfold constraintLoopRun
    simp only [List.length_cons, constraintLoop, hpe]
  · intro k h1 h2 h3
    cases k <;> first | rfl | simp_all
  · intro t ht
    cases t with
    | Keyword k => exact absurd rfl (ht k)
    | Ident s => rfl
    | String s => rfl
    | Number s => rfl
    | Symbol s => rfl

/-- C7 witness: concrete reductions for the NULL, NOT NULL, DEFAULT, bare
NOT, and foreign-keyword cases. -/
theorem c7_constraint_loop_witness :
    constraintLoopRun ⟨ "c", DataType.Integer, none, none⟩
        [ Token.Keyword Keyword.Not, Token.Ident "x"]
      = .error "Expected Keyword(Null), got Ident(\"x\")"
    ∧ constraintLoopRun ⟨ "c", DataType.Integer, none, none⟩
        (Token.Keyword Keyword.Default :: [ Token.Number "1"])
      = constraintLoopRun
          ⟨ "c", DataType.Integer, none, some (Expression.Const (Const.Integer 1))⟩ []
    ∧ constraintLoopRun ⟨ "c", DataType.Integer, none, none⟩
        [ Token.Keyword Keyword.Primary]
      = .error "Unexpected keyword: Primary"
    ∧ constraintLoopRun ⟨ "c", DataType.Integer, none, none⟩
        [ Token.Symbol Symbol.Comma]
      = .ok (⟨ "c", DataType.Integer, none, none⟩, [ Token.Symbol Symbol.Comma]) :=
  ⟨ (c7_constraint_loop ⟨ "c", DataType.Integer, none, none⟩ []).2.2.1
      (Token.Ident "x") (by decide),
    (c7_constraint_loop ⟨ "c", DataType.Integer, none, none⟩ [ Token.Number "1"]).2.2.2.2.1
      (Expression.Const (Const.Integer 1)) [] rfl,
    (c7_constraint_loop ⟨ "c", DataType.Integer, none, none⟩ []).2.2.2.2.2.2.1
      Keyword.Primary (by decide) (by decide) (by decide),
    (c7_constraint_loop ⟨ "c", DataType.Integer, none, none⟩ []).2.2.2.2.2.2.2.1
      (Token.Symbol Symbol.Comma) (fun k h => Token.noConfusion h)⟩

/-- C9: every `Statement::Insert` a successful parse produces has a
non-empty column-name list whenever one is present, a non-empty sequence
of value rows, and only non-empty rows; hence in the lowered
`Node::Insert` the columns vector is empty exactly when the SQL statement
omitted the column list. -/
theorem c9_insert_invariants :
    ∀ (ts : List Token) (tn : String) (cols : Option (List String))
      (vals : List (List Expression)),
      parse ts = .ok (Statement.Insert tn cols vals) →
      (∀ l, cols = some l → l ≠ [])
      ∧ vals ≠ []
      ∧ (∀ row ∈ vals, row ≠ [])
      ∧ ∀ ncols nvals,
          buildStatement (Statement.Insert tn cols vals) = Node.Insert tn ncols nvals →
          (ncols = [] ↔ cols = none) := by
  intro ts tn cols vals h
  unfold parse at h
  split at h
  · simp at h
  rename_i stmt ts1 hps
  split at h
  · simp at h
  split at h
  · simp at h
  · simp only [Except.ok.injEq] at h
    rw [h] at hps
    unfold parseStatement at hps
    split at hps
    · simp at hps
    split at hps
    · obtain ⟨tn2, cols2, hshape⟩ := parseDdl_ok_shape hps
      simp at hshape
    · obtain ⟨tn2, hshape⟩ := parseSelect_ok_shape hps
      simp at hshape
    · obtain ⟨tn2, cols2, vals2, heq, hc, hv, hr⟩ := parseInsert_ok_inv hps
      simp only [Statement.Insert.injEq] at heq
      obtain ⟨rfl, rfl, rfl⟩ := heq
      refine ⟨ hc, hv, hr, ?_⟩
      intro ncols nvals hb
      simp only [buildStatement, Node.Insert.injEq] at hb
      obtain ⟨-, hcols, -⟩ := hb
      cases cols with
      | none => simp [← hcols]
      | some l =>
        have hne := hc l rfl
        simp only [Option.getD_some] at hcols
        rw [← hcols]
        simp [hne]
    · simp at hps

/-- C9 witness: a parsed single-row positional INSERT satisfies the
invariants. -/
theorem c9_insert_invariants_witness :
    ([[ Expression.Const (Const.Integer 1)]] : List (List Expression)) ≠ [] :=
  (c9_insert_invariants
    [ Token.Keyword Keyword.Insert, Token.Keyword Keyword.Into, Token.Ident "t",
      Token.Keyword Keyword.Values, Token.Symbol Symbol.OpenParen,
      Token.Number "1", Token.Symbol Symbol.CloseParen,
      Token.Symbol Symbol.Semicolon]
    "t" none [[ Expression.Const (Const.Integer 1)]] rfl).2.1

end RSqlDb
